import Mathlib

/-!
K-Tax: validation and batch pipeline of `tax/handler.go`.

A shallow embedding of the pure core of `src/tax/handler.go`:

* `validateTaxValues` (lines 120-144),
* `validateCsvData` (lines 104-118),
* `TaxUploadCsvHandler` from the reading of the rows on (lines 49-101): the check of
  the field counts in `reader.ReadAll()`, the row loop, and the reply of line 101.

The input of the batch model is the list of rows of the uploaded file, each row split
in its fields; the quoting rules by which `encoding/csv` splits a line are not part of
the model.

Library behaviour that the source calls but does not define is handled as follows.

* `float64` is the type `F64`: NaN, the two infinities, and the finite values. The
  code only compares floats and flips a sign, and both operations are exact in
  IEEE 754, so no rounding is involved. Finite values carry a rational; the set of
  rationals contains every finite `float64`, and the two zeros, which compare
  equal, are one value.
* `strings.ToLower` maps every rune through `unicode.ToLower`. The ASCII part is
  written out; the case table for the runes above ASCII is the parameter `tbl`.
* `strings.TrimSpace` and `strings.Contains` are written out.
* `strconv.ParseFloat` is the parameter `pf`, returning the value and the error.
* `reader.ReadAll()` with the default `FieldsPerRecord = 0` takes the number of fields
  of the first row and fails with `csv.ErrFieldCount` on a later row of another length.
* `encoding/json`, behind `c.JSON`, has no encoding for NaN and the infinities: the
  call fails on a result that holds one.
* `taxCalculate` lives in another file of the package and is the parameter
  `taxCalculate` of the handlers. To evaluate the batch with an engine, the Tax Engine
  of section 4.2 of the specification is modelled as the definition `taxCalculate`,
  over exact numbers and a bracket schedule given as a list of tiers.
-/

namespace Tax

/-! ## float64 -/

/-- A `float64` value up to what comparisons can observe. -/
inductive F64 where
  | nan
  | negInf
  | posInf
  | fin (q : ℚ)
  deriving DecidableEq

namespace F64

/-- IEEE 754 `a < b`: false as soon as one side is NaN. -/
def lt : F64 → F64 → Bool
  | nan, _ => false
  | _, nan => false
  | negInf, negInf => false
  | negInf, _ => true
  | _, negInf => false
  | posInf, _ => false
  | fin _, posInf => true
  | fin a, fin b => decide (a < b)

/-- IEEE 754 `a <= b`: false as soon as one side is NaN. -/
def le : F64 → F64 → Bool
  | nan, _ => false
  | _, nan => false
  | negInf, _ => true
  | _, posInf => true
  | posInf, _ => false
  | fin _, negInf => false
  | fin a, fin b => decide (a ≤ b)

instance : LT F64 := ⟨fun a b => lt a b = true⟩
instance : LE F64 := ⟨fun a b => le a b = true⟩
instance (a b : F64) : Decidable (a < b) := inferInstanceAs (Decidable (lt a b = true))
instance (a b : F64) : Decidable (a ≤ b) := inferInstanceAs (Decidable (le a b = true))

/-- The constant `0` of the comparisons `x < 0`. -/
instance : Zero F64 := ⟨fin 0⟩

/-- The product `x * -1.0`, an exact sign flip. -/
def negate : F64 → F64
  | nan => nan
  | negInf => posInf
  | posInf => negInf
  | fin q => fin (-q)

/-- The value is NaN. -/
def isNaN : F64 → Bool
  | nan => true
  | _ => false

/-- The value is finite: neither NaN nor an infinity. -/
def isFinite : F64 → Bool
  | fin _ => true
  | _ => false

end F64

/-! ## strings -/

/-- The rune map `unicode.ToLower`: ASCII letters are shifted, other ASCII runes are
kept, and runes above ASCII go through the case table `tbl`. -/
def toLowerRune (tbl : Char → Char) (c : Char) : Char :=
  if c.toNat ≤ 127 then
    if 65 ≤ c.toNat ∧ c.toNat ≤ 90 then Char.ofNat (c.toNat + 32) else c
  else tbl c

/-- The function `strings.ToLower`. -/
def ToLower (tbl : Char → Char) (s : String) : String :=
  ⟨s.data.map (toLowerRune tbl)⟩

/-- The function `strings.Contains`. -/
def Contains (s substr : String) : Bool :=
  decide (substr.data <:+: s.data)

/-- The predicate `unicode.IsSpace`: the runes with the White_Space property. -/
def isSpace (c : Char) : Bool :=
  let n := c.toNat
  (9 ≤ n && n ≤ 13) || n == 32 || n == 0x85 || n == 0xA0 || n == 0x1680 ||
  (0x2000 ≤ n && n ≤ 0x200A) || n == 0x2028 || n == 0x2029 || n == 0x202F ||
  n == 0x205F || n == 0x3000

/-- The function `strings.TrimSpace`: leading and trailing white space removed. -/
def TrimSpace (s : String) : String :=
  ⟨((s.data.dropWhile isSpace).reverse.dropWhile isSpace).reverse⟩

/-! ## data model -/

/-- The struct `Allowance`, with the fields the handlers use. -/
structure Allowance where
  AllowanceType : String
  Amount : F64
  deriving DecidableEq

/-- The struct `IncomeTaxDetail`, with the fields the handlers use. -/
structure IncomeTaxDetail where
  TotalIncome : F64
  WithHoldingTax : F64
  Allowances : List Allowance
  deriving DecidableEq

/-- The `error` values handed to `c.JSON(http.StatusBadRequest, err)`: the ones built
in `handler.go`, one constructor per format string, carrying the arguments of the
format, and the one that `reader.ReadAll()` returns for a row of the wrong length. -/
inductive Err where
  /-- `csv.ErrFieldCount`, `"wrong number of fields"`, wrapped by `reader.ReadAll()` in
  a `*csv.ParseError` with the position of the row -/
  | wrongNumberOfFields
  /-- `"all values must be non-empty"` -/
  | allValuesNonEmpty
  /-- `"invalid format"` -/
  | invalidFormat
  /-- `"total income (%.2f) cannot be negative"` -/
  | negativeTotalIncome (totalIncome : F64)
  /-- `"wht (%.2f) cannot be negative"` -/
  | negativeWht (wht : F64)
  /-- `"wht (%.2f) cannot be greater than total income (%.2f)"` -/
  | whtGreaterThanIncome (wht totalIncome : F64)
  /-- `"allowance amount (%.2f) cannot be negative"` -/
  | negativeAllowanceAmount (amount : F64)
  /-- `"invalid allowance type: %s"` -/
  | invalidAllowanceType (allowanceType : String)
  deriving DecidableEq

/-! ## validateTaxValues -/

/-- The condition of the `if` at line 134. -/
def recognizedType (tbl : Char → Char) (allowanceType : String) : Bool :=
  Contains (ToLower tbl allowanceType) "personal" ||
  Contains (ToLower tbl allowanceType) "receipt" ||
  allowanceType == "donation"

/-- The loop of lines 133-141 over `t.Allowances`; `none` when it runs to its end. -/
def allowanceLoop (tbl : Char → Char) : List Allowance → Option Err
  | [] => none
  | allowance :: rest =>
    if recognizedType tbl allowance.AllowanceType then
      if allowance.Amount < 0 then
        some (.negativeAllowanceAmount allowance.Amount)
      else allowanceLoop tbl rest
    else
      some (.invalidAllowanceType allowance.AllowanceType)

/-- The function `validateTaxValues` (lines 120-144); `none` is the `nil` error. -/
def validateTaxValues (tbl : Char → Char) (t : IncomeTaxDetail) : Option Err :=
  if t.TotalIncome < 0 then
    some (.negativeTotalIncome t.TotalIncome)
  else if t.WithHoldingTax < 0 then
    some (.negativeWht t.WithHoldingTax)
  else if t.WithHoldingTax > t.TotalIncome then
    some (.whtGreaterThanIncome t.WithHoldingTax t.TotalIncome)
  else
    allowanceLoop tbl t.Allowances

/-! ## validateCsvData -/

/-- The `error` of `strconv.ParseFloat`: a `*NumError` wrapping one of the two causes. -/
inductive NumError where
  | errSyntax
  | errRange
  deriving DecidableEq

/-- The type of `strconv.ParseFloat(s, 64)`: the value and the error (`none` is `nil`). -/
abbrev Parser := String → F64 × Option NumError

/-- The first loop of `validateCsvData` (lines 105-109). -/
def emptyLoop : List String → Option Err
  | [] => none
  | field :: rest =>
    if TrimSpace field = "" then some .allValuesNonEmpty else emptyLoop rest

/-- The second loop of `validateCsvData` (lines 111-115). -/
def formatLoop (pf : Parser) : List String → Option Err
  | [] => none
  | field :: rest =>
    match (pf field).2 with
    | some _ => some .invalidFormat
    | none => formatLoop pf rest

/-- The function `validateCsvData` (lines 104-118); `none` is the `nil` error. -/
def validateCsvData (pf : Parser) (record : List String) : Option Err :=
  match emptyLoop record with
  | some err => some err
  | none =>
    match formatLoop pf record with
    | some err => some err
    | none => none

/-! ## The row loop of TaxUploadCsvHandler -/

/-- The result of `taxCalculate`, with the field the handlers read. -/
structure TaxResult where
  TotalTax : F64
  deriving DecidableEq

/-- The struct `TaxCsvResultDetail`; a field left out of a literal is the zero value. -/
structure TaxCsvResultDetail where
  TotalIncome : F64
  Tax : F64 := 0
  TaxRefund : F64 := 0
  deriving DecidableEq

/-- The struct `TaxCsvResult`. -/
structure TaxCsvResult where
  Taxes : List TaxCsvResultDetail
  deriving DecidableEq

/-- What the handler does once the rows are read: one of its two JSON replies, or the
run-time panic of an index out of range. -/
inductive Response where
  /-- `c.JSON(http.StatusOK, result)` -/
  | ok (result : TaxCsvResult)
  /-- `c.JSON(http.StatusBadRequest, err)` -/
  | badRequest (err : Err)
  /-- The panic of `record[i]` with `i` past the end of the row. -/
  | panicIndexOutOfRange
  /-- The call `c.JSON(http.StatusOK, result)` fails to encode `result`; the handler
  returns the error of the encoder and the framework replies with status 500. -/
  | encodeError
  deriving DecidableEq

/-- Whether `encoding/json` can encode the result: every number in it is finite. -/
def encodable (result : TaxCsvResult) : Bool :=
  result.Taxes.all (fun d => d.TotalIncome.isFinite && d.Tax.isFinite && d.TaxRefund.isFinite)

/-- Line 101, `return c.JSON(http.StatusOK, result)`. -/
def replyOK (result : TaxCsvResult) : Response :=
  if encodable result then .ok result else .encodeError

/-- The check of the field counts in `reader.ReadAll()` (line 51), row by row.
`fieldsPerRecord` is the field of that name of the reader: while it is `0` the next
row sets it to its own length, and once it is positive a row of another length is the
error `csv.ErrFieldCount`. `none` when every row passes. -/
def readAllLoop (fieldsPerRecord : Nat) : List (List String) → Option Err
  | [] => none
  | record :: rest =>
    if fieldsPerRecord > 0 then
      if record.length ≠ fieldsPerRecord then some .wrongNumberOfFields
      else readAllLoop fieldsPerRecord rest
    else
      readAllLoop record.length rest

/-- Lines 49-51, `csv.NewReader(src)` and `reader.ReadAll()`, on the rows of the file:
the rows themselves, or the error of the first row whose length is not the one of the
first row. -/
def ReadAll (rows : List (List String)) : Except Err (List (List String)) :=
  match readAllLoop 0 rows with
  | some err => .error err
  | none => .ok rows

/-- Lines 66-76: the three reads `record[0]`, `record[1]`, `record[2]`, the three
parses whose error is discarded, and the record literal. `none` is the panic of a read
past the end of the row. -/
def buildRecord (pf : Parser) (record : List String) : Option IncomeTaxDetail :=
  match record[0]?, record[1]?, record[2]? with
  | some r0, some r1, some r2 =>
    let totalIncome := (pf r0).1
    let wht := (pf r1).1
    let donation := (pf r2).1
    some { TotalIncome := totalIncome
           WithHoldingTax := wht
           Allowances := [{ AllowanceType := "donation", Amount := donation }] }
  | _, _, _ => none

/-- Lines 85-96: the sign classification of `taxCal.TotalTax`. -/
def classify (totalIncome : F64) (taxCal : TaxResult) : TaxCsvResultDetail :=
  if taxCal.TotalTax ≥ 0 then
    { TotalIncome := totalIncome, Tax := taxCal.TotalTax }
  else
    { TotalIncome := totalIncome, TaxRefund := taxCal.TotalTax.negate }

/-- The `for i, record := range records` loop of lines 57-99 followed by the reply of
line 101, `replyOK`. `i` is the index of the head of the remaining rows and `result` the value
accumulated so far. -/
def rowLoop (tbl : Char → Char) (pf : Parser) (taxCalculate : IncomeTaxDetail → TaxResult) :
    Nat → List (List String) → TaxCsvResult → Response
  | _, [], result => replyOK result
  | i, record :: rest, result =>
    if i = 0 then
      rowLoop tbl pf taxCalculate (i + 1) rest result
    else
      match validateCsvData pf record with
      | some err => .badRequest err
      | none =>
        match buildRecord pf record with
        | none => .panicIndexOutOfRange
        | some itd =>
          match validateTaxValues tbl itd with
          | some err => .badRequest err
          | none =>
            let taxCal := taxCalculate itd
            let resultDetail := classify itd.TotalIncome taxCal
            rowLoop tbl pf taxCalculate (i + 1) rest
              { Taxes := result.Taxes ++ [resultDetail] }

/-- The function `TaxUploadCsvHandler` from line 49 on, given the rows of the uploaded
file: `reader.ReadAll()` and its error reply (lines 51-54), then the loop and the
reply of line 101. -/
def TaxUploadCsvHandler (tbl : Char → Char) (pf : Parser)
    (taxCalculate : IncomeTaxDetail → TaxResult) (rows : List (List String)) : Response :=
  match ReadAll rows with
  | .error err => .badRequest err
  | .ok records => rowLoop tbl pf taxCalculate 0 records { Taxes := [] }

/-- Lines 24-30 of `TaxCalculationsHandler`: the pipeline run on the bound record. -/
def TaxCalculationsHandler (tbl : Char → Char) (taxCalculate : IncomeTaxDetail → TaxResult)
    (itd : IncomeTaxDetail) : Except Err TaxResult :=
  match validateTaxValues tbl itd with
  | some err => .error err
  | none => .ok (taxCalculate itd)

/-! ## Instances of the parameters for evaluating concrete inputs -/

/-- A case table with no entry. The strings evaluated below are ASCII, for which
`strings.ToLower` never consults the table. -/
def asciiCaseTable : Char → Char := fun c => c

/-- A parser for evaluating concrete rows. On `NaN`, on `Inf` and on a string of decimal
digits below `2^53` it returns what `strconv.ParseFloat` returns, the NaN, the positive
infinity and the integer with a `nil` error; every other string gets the reply to a
string with no number in it, zero and a syntax error. It is applied below to such
strings only. -/
def digitsParser : Parser := fun s =>
  if s = "NaN" then (.nan, none)
  else if s = "Inf" then (.posInf, none)
  else if s.data ≠ [] ∧ s.data.all Char.isDigit = true ∧
      s.data.foldl (fun n c => 10 * n + (c.toNat - 48)) 0 < 2 ^ 53 then
    (.fin (s.data.foldl (fun n c => 10 * n + (c.toNat - 48)) 0 : ℕ), none)
  else (.fin 0, some .errSyntax)

/-- A stand-in for `taxCalculate` for evaluating concrete inputs: no liability, so
`TotalTax` is the negated withholding. -/
def refundAll : IncomeTaxDetail → TaxResult :=
  fun itd => { TotalTax := itd.WithHoldingTax.negate }

/-! ## The invariant of the data model -/

/-- The data-model invariant, in the words of the specification:
`0 <= WithHoldingTax <= TotalIncome`, and every allowance has a recognized type (its
lower-cased type contains `personal` or `receipt`, or its type is `donation`) and an
amount `>= 0`. -/
def Invariant (tbl : Char → Char) (t : IncomeTaxDetail) : Prop :=
  0 ≤ t.WithHoldingTax ∧ t.WithHoldingTax ≤ t.TotalIncome ∧
    ∀ a ∈ t.Allowances,
      (Contains (ToLower tbl a.AllowanceType) "personal" = true ∨
        Contains (ToLower tbl a.AllowanceType) "receipt" = true ∨
        a.AllowanceType = "donation") ∧ 0 ≤ a.Amount

instance (tbl : Char → Char) (t : IncomeTaxDetail) : Decidable (Invariant tbl t) := by
  unfold Invariant; infer_instance

/-- No numeric field of the record is NaN. -/
def NoNaN (t : IncomeTaxDetail) : Prop :=
  t.TotalIncome.isNaN = false ∧ t.WithHoldingTax.isNaN = false ∧
    ∀ a ∈ t.Allowances, a.Amount.isNaN = false

/-! ## The loop body as a function -/

/-- What one pass of the loop body does with a data row. -/
inductive RowResult where
  /-- The pass replies `c.JSON(http.StatusBadRequest, err)` and the batch stops. -/
  | error (err : Err)
  /-- The pass appends `resultDetail` to `result.Taxes`. -/
  | detail (resultDetail : TaxCsvResultDetail)
  /-- The pass panics on a read past the end of the row. -/
  | panicIndexOutOfRange
  deriving DecidableEq

/-- One pass of the loop body on a data row (lines 62-96), the steps of `rowLoop` on
its own: `validateCsvData`, the record, `validateTaxValues`, `taxCalculate` and the
sign classification. -/
def rowStep (tbl : Char → Char) (pf : Parser) (taxCalculate : IncomeTaxDetail → TaxResult)
    (record : List String) : RowResult :=
  match validateCsvData pf record with
  | some err => .error err
  | none =>
    match buildRecord pf record with
    | none => .panicIndexOutOfRange
    | some itd =>
      match validateTaxValues tbl itd with
      | some err => .error err
      | none => .detail (classify itd.TotalIncome (taxCalculate itd))

/-! ## The tax engine of the specification -/

/-- The exact number a finite value stands for (`0` for the other values). -/
def F64.toRat : F64 → ℚ
  | .fin q => q
  | _ => 0

/-- Every number of the record is finite. -/
def exactRecord (itd : IncomeTaxDetail) : Bool :=
  itd.TotalIncome.isFinite && itd.WithHoldingTax.isFinite &&
    itd.Allowances.all (fun a => a.Amount.isFinite)

/-- Modelled from the spec: one tier of the bracket schedule, the configuration input
of the Tax Engine (section 6), `{thresholdUpperBound, marginalRate}`. The source of
`taxCalculate` and of its bracket table is not part of `handler.go`. -/
structure Tier where
  thresholdUpperBound : ℚ
  marginalRate : ℚ
  deriving DecidableEq

/-- Modelled from the spec: step 1 of section 4.2, the sum of all allowance amounts.
The body of `taxCalculate` is missing from the source. -/
def TotalAllowances (allowances : List Allowance) : ℚ :=
  (allowances.map (fun a => a.Amount.toRat)).sum

/-- Modelled from the spec: step 2 of section 4.2,
`TaxableIncome = max(0, TotalIncome - TotalAllowances)`. The body of `taxCalculate` is
missing from the source. -/
def TaxableIncome (totalIncome totalAllowances : ℚ) : ℚ :=
  max 0 (totalIncome - totalAllowances)

/-- Modelled from the spec: step 3 of section 4.2 on the tiers above `lower`. Each tier
taxes, at its marginal rate, the portion of the taxable income between the upper bound
of the tier before it and its own upper bound. The body of `taxCalculate` is missing
from the source. -/
def grossLiabilityFrom (lower : ℚ) : List Tier → ℚ → ℚ
  | [], _ => 0
  | tier :: rest, taxableIncome =>
    tier.marginalRate * max 0 (min taxableIncome tier.thresholdUpperBound - lower) +
      grossLiabilityFrom tier.thresholdUpperBound rest taxableIncome

/-- Modelled from the spec: step 3 of section 4.2, the progressive bracket schedule
applied to the taxable income, the first tier starting at zero. The body of
`taxCalculate` is missing from the source. -/
def GrossLiability (schedule : List Tier) (taxableIncome : ℚ) : ℚ :=
  grossLiabilityFrom 0 schedule taxableIncome

/-- Modelled from the spec: the Tax Engine `compute` of section 4.2, the missing body
of `taxCalculate`, over exact numbers as the numeric semantics of the section ask:
`TotalTax = GrossLiability - WithholdingTax`. The spec has no NaN and no infinity; on a
record holding one the model returns NaN. -/
def taxCalculate (schedule : List Tier) (itd : IncomeTaxDetail) : TaxResult :=
  if exactRecord itd then
    { TotalTax := .fin (GrossLiability schedule
        (TaxableIncome itd.TotalIncome.toRat (TotalAllowances itd.Allowances)) -
        itd.WithHoldingTax.toRat) }
  else
    { TotalTax := .nan }

/-- A bracket schedule for evaluating concrete inputs, with a zero-rate bottom
bracket. -/
def sampleSchedule : List Tier :=
  [⟨150000, 0⟩, ⟨500000, 1 / 10⟩, ⟨1000000, 3 / 20⟩]

/-! ## Lemmas on float64 comparisons -/

theorem F64.zero_def : (0 : F64) = F64.fin 0 := rfl

theorem F64.lt_def (a b : F64) : a < b ↔ F64.lt a b = true := Iff.rfl

theorem F64.le_def (a b : F64) : a ≤ b ↔ F64.le a b = true := Iff.rfl

/-- `a <= b` excludes `b < a`, NaN included. -/
theorem F64.not_lt_of_le {a b : F64} (h : a ≤ b) : ¬ b < a := by
  rw [F64.le_def] at h
  rw [F64.lt_def]
  cases a <;> cases b <;> simp_all [F64.le, F64.lt]

/-- Away from NaN the order is total: `b < a` fails exactly when `a <= b`. -/
theorem F64.not_lt_iff_le {a b : F64} (ha : a.isNaN = false) (hb : b.isNaN = false) :
    ¬ b < a ↔ a ≤ b := by
  rw [F64.le_def, F64.lt_def]
  cases a <;> cases b <;> simp_all [F64.le, F64.lt, F64.isNaN]

/-! ## Lemmas on validateTaxValues -/

/-- The allowance loop runs to its end exactly when no allowance trips a check. -/
theorem allowanceLoop_eq_none_iff (tbl : Char → Char) (l : List Allowance) :
    allowanceLoop tbl l = none ↔
      ∀ a ∈ l, recognizedType tbl a.AllowanceType = true ∧ ¬ a.Amount < 0 := by
  induction l with
  | nil => simp [allowanceLoop]
  | cons a rest ih =>
    by_cases hr : recognizedType tbl a.AllowanceType = true
    · by_cases hn : a.Amount < 0
      · simp [allowanceLoop, hr, hn]
      · simp [allowanceLoop, hr, hn, ih]
    · simp [allowanceLoop, hr]

/-- The record passes exactly when none of the comparisons of the code is true. -/
theorem validateTaxValues_eq_none_iff (tbl : Char → Char) (t : IncomeTaxDetail) :
    validateTaxValues tbl t = none ↔
      ¬ t.TotalIncome < 0 ∧ ¬ t.WithHoldingTax < 0 ∧ ¬ t.WithHoldingTax > t.TotalIncome ∧
        ∀ a ∈ t.Allowances, recognizedType tbl a.AllowanceType = true ∧ ¬ a.Amount < 0 := by
  unfold validateTaxValues
  by_cases h1 : t.TotalIncome < 0
  · simp [h1]
  · by_cases h2 : t.WithHoldingTax < 0
    · simp [h1, h2]
    · by_cases h3 : t.WithHoldingTax > t.TotalIncome
      · simp [h1, h2, h3]
      · simp [h1, h2, h3, allowanceLoop_eq_none_iff]

theorem recognizedType_iff (tbl : Char → Char) (ty : String) :
    recognizedType tbl ty = true ↔
      (Contains (ToLower tbl ty) "personal" = true ∨
        Contains (ToLower tbl ty) "receipt" = true ∨ ty = "donation") := by
  simp [recognizedType, or_assoc]

/-- Every record that satisfies the invariant is accepted. -/
theorem validateTaxValues_of_invariant (tbl : Char → Char) (t : IncomeTaxDetail)
    (h : Invariant tbl t) : validateTaxValues tbl t = none := by
  obtain ⟨h0, h1, h2⟩ := h
  rw [validateTaxValues_eq_none_iff]
  have hT : ¬ t.TotalIncome < 0 := by
    intro hlt
    rw [F64.le_def] at h0 h1
    rw [F64.lt_def] at hlt
    revert h0 h1 hlt
    rw [F64.zero_def]
    cases t.TotalIncome <;> cases t.WithHoldingTax <;> simp [F64.le, F64.lt]
    intro a b; exact le_trans a b
  refine ⟨hT, F64.not_lt_of_le h0, F64.not_lt_of_le h1, ?_⟩
  intro a ha
  exact ⟨(recognizedType_iff tbl _).2 (h2 a ha).1, F64.not_lt_of_le (h2 a ha).2⟩

/-- On records without NaN, acceptance and the invariant coincide. -/
theorem validateTaxValues_eq_none_iff_invariant (tbl : Char → Char) (t : IncomeTaxDetail)
    (hn : NoNaN t) : validateTaxValues tbl t = none ↔ Invariant tbl t := by
  constructor
  · intro h
    rw [validateTaxValues_eq_none_iff] at h
    obtain ⟨_, h2, h3, h4⟩ := h
    have hz : (0 : F64).isNaN = false := rfl
    refine ⟨(F64.not_lt_iff_le hz hn.2.1).1 h2, (F64.not_lt_iff_le hn.2.1 hn.1).1 h3, ?_⟩
    intro a ha
    exact ⟨(recognizedType_iff tbl _).1 (h4 a ha).1,
      (F64.not_lt_iff_le hz (hn.2.2 a ha)).1 (h4 a ha).2⟩
  · exact validateTaxValues_of_invariant tbl t

/-- The empty record and the record with one donation are accepted, whatever the case
table. -/
theorem validateTaxValues_accepts_examples (tbl : Char → Char) :
    validateTaxValues tbl ⟨.fin 0, .fin 0, []⟩ = none ∧
      validateTaxValues tbl ⟨.fin 100000, .fin 50000, [⟨"donation", .fin 10000⟩]⟩ = none := by
  constructor
  · rfl
  · apply validateTaxValues_of_invariant
    refine ⟨by decide, by decide, ?_⟩
    intro a ha
    simp only [List.mem_singleton] at ha
    subst ha
    exact ⟨Or.inr (Or.inr rfl), by decide⟩

/-- A record with an allowance that trips a check of the loop is rejected. -/
theorem validateTaxValues_ne_none_of_mem (tbl : Char → Char) (t : IncomeTaxDetail)
    (a : Allowance) (ha : a ∈ t.Allowances)
    (hbad : recognizedType tbl a.AllowanceType = false ∨ a.Amount < 0) :
    validateTaxValues tbl t ≠ none := by
  intro h
  rw [validateTaxValues_eq_none_iff] at h
  have := h.2.2.2 a ha
  rcases hbad with hb | hb
  · rw [this.1] at hb; cases hb
  · exact this.2 hb

/-- The capitalised `Donation` matches none of the three families, whatever the
case table. -/
theorem recognizedType_Donation (tbl : Char → Char) :
    recognizedType tbl "Donation" = false := by
  rfl

/-- The allowance loop never returns one of the two errors of `validateCsvData`. -/
theorem allowanceLoop_not_structural (tbl : Char → Char) (l : List Allowance) :
    allowanceLoop tbl l ≠ some .allValuesNonEmpty ∧ allowanceLoop tbl l ≠ some .invalidFormat := by
  induction l with
  | nil => simp [allowanceLoop]
  | cons a rest ih =>
    unfold allowanceLoop
    split_ifs <;> simp [ih]

/-- The function `validateTaxValues` never returns one of the two errors of
`validateCsvData`. -/
theorem validateTaxValues_not_structural (tbl : Char → Char) (t : IncomeTaxDetail) :
    validateTaxValues tbl t ≠ some .allValuesNonEmpty ∧
      validateTaxValues tbl t ≠ some .invalidFormat := by
  unfold validateTaxValues
  split_ifs <;> simp [allowanceLoop_not_structural]

/-! ## Lemmas on validateCsvData and the row loop -/

theorem emptyLoop_eq_none_iff (record : List String) :
    emptyLoop record = none ↔ ∀ field ∈ record, TrimSpace field ≠ "" := by
  induction record with
  | nil => simp [emptyLoop]
  | cons field rest ih =>
    by_cases h : TrimSpace field = "" <;> simp [emptyLoop, h, ih]

theorem emptyLoop_eq_some (record : List String) (err : Err)
    (h : emptyLoop record = some err) : err = .allValuesNonEmpty := by
  induction record with
  | nil => simp [emptyLoop] at h
  | cons field rest ih =>
    by_cases hf : TrimSpace field = ""
    · simp [emptyLoop, hf] at h; exact h.symm
    · simp [emptyLoop, hf] at h; exact ih h

theorem formatLoop_eq_none_iff (pf : Parser) (record : List String) :
    formatLoop pf record = none ↔ ∀ field ∈ record, (pf field).2 = none := by
  induction record with
  | nil => simp [formatLoop]
  | cons field rest ih =>
    cases h : (pf field).2 <;> simp [formatLoop, h, ih]

theorem formatLoop_eq_some (pf : Parser) (record : List String) (err : Err)
    (h : formatLoop pf record = some err) : err = .invalidFormat := by
  induction record with
  | nil => simp [formatLoop] at h
  | cons field rest ih =>
    cases hf : (pf field).2
    · simp [formatLoop, hf] at h; exact ih h
    · simp [formatLoop, hf] at h; exact h.symm

/-- A row passes `validateCsvData` exactly when no field is blank and every field
parses. -/
theorem validateCsvData_eq_none_iff (pf : Parser) (record : List String) :
    validateCsvData pf record = none ↔
      (∀ field ∈ record, TrimSpace field ≠ "") ∧ ∀ field ∈ record, (pf field).2 = none := by
  unfold validateCsvData
  cases h1 : emptyLoop record with
  | some e =>
    have : ¬ ∀ field ∈ record, TrimSpace field ≠ "" := by
      rw [← emptyLoop_eq_none_iff, h1]; simp
    simp [this]
  | none =>
    have h1' := (emptyLoop_eq_none_iff record).1 h1
    cases h2 : formatLoop pf record with
    | some e =>
      have : ¬ ∀ field ∈ record, (pf field).2 = none := by
        rw [← formatLoop_eq_none_iff, h2]; simp
      simp [this]
    | none =>
      have h2' := (formatLoop_eq_none_iff pf record).1 h2
      simp only [true_iff]
      exact ⟨h1', h2'⟩

/-- Once the field count is set, the rows pass the reader exactly when each of them
has that number of fields. -/
theorem readAllLoop_eq_none_iff (n : Nat) (hn : 0 < n) (rows : List (List String)) :
    readAllLoop n rows = none ↔ ∀ r ∈ rows, r.length = n := by
  induction rows with
  | nil => simp [readAllLoop]
  | cons r rest ih =>
    by_cases hr : r.length = n
    · simp [readAllLoop, hn, hr, ih]
    · simp [readAllLoop, hn, hr]

/-- The only error of the reader in the model is the wrong number of fields. -/
theorem readAllLoop_eq_some (n : Nat) (rows : List (List String)) (err : Err)
    (h : readAllLoop n rows = some err) : err = .wrongNumberOfFields := by
  induction rows generalizing n with
  | nil => simp [readAllLoop] at h
  | cons r rest ih =>
    unfold readAllLoop at h
    split_ifs at h with h1 h2
    · simp only [Option.some.injEq] at h
      exact h.symm
    · exact ih n h
    · exact ih r.length h

/-- The first row sets the field count and is skipped by the loop. -/
theorem TaxUploadCsvHandler_cons (tbl : Char → Char) (pf : Parser)
    (taxCalculate : IncomeTaxDetail → TaxResult) (header : List String)
    (rest : List (List String)) :
    TaxUploadCsvHandler tbl pf taxCalculate (header :: rest) =
      match readAllLoop header.length rest with
      | some err => .badRequest err
      | none => rowLoop tbl pf taxCalculate 1 rest { Taxes := [] } := by
  have h0 : readAllLoop 0 (header :: rest) = readAllLoop header.length rest := by
    simp [readAllLoop]
  unfold TaxUploadCsvHandler ReadAll
  rw [h0]
  cases readAllLoop header.length rest with
  | some err => rfl
  | none => simp [rowLoop]

/-- A row with as many fields as the header passes the reader. -/
theorem readAllLoop_singleton (header record : List String)
    (hlen : record.length = header.length) :
    readAllLoop header.length [record] = none := by
  by_cases hn : 0 < header.length
  · exact (readAllLoop_eq_none_iff _ hn [record]).2 (by simpa using hlen)
  · simp [readAllLoop, hn]

/-- The reply to a header followed by one data row with as many fields, step by
step. -/
theorem TaxUploadCsvHandler_one_row (tbl : Char → Char) (pf : Parser)
    (taxCalculate : IncomeTaxDetail → TaxResult) (header record : List String)
    (hlen : record.length = header.length) :
    TaxUploadCsvHandler tbl pf taxCalculate [header, record] =
      match validateCsvData pf record with
      | some err => .badRequest err
      | none =>
        match buildRecord pf record with
        | none => .panicIndexOutOfRange
        | some itd =>
          match validateTaxValues tbl itd with
          | some err => .badRequest err
          | none => replyOK { Taxes := [classify itd.TotalIncome (taxCalculate itd)] } := by
  rw [TaxUploadCsvHandler_cons, readAllLoop_singleton header record hlen]
  simp only [rowLoop, one_ne_zero, if_false, List.nil_append]

/-! ## Lemmas on the loop -/

/-- The loop on a data row is the loop body followed by the loop on the rest. -/
theorem rowLoop_cons (tbl : Char → Char) (pf : Parser)
    (taxCalculate : IncomeTaxDetail → TaxResult) (i : Nat) (hi : i ≠ 0)
    (record : List String) (rest : List (List String)) (result : TaxCsvResult) :
    rowLoop tbl pf taxCalculate i (record :: rest) result =
      match rowStep tbl pf taxCalculate record with
      | .error err => .badRequest err
      | .panicIndexOutOfRange => .panicIndexOutOfRange
      | .detail d =>
        rowLoop tbl pf taxCalculate (i + 1) rest { Taxes := result.Taxes ++ [d] } := by
  simp only [rowLoop, rowStep, hi, if_false]
  cases validateCsvData pf record with
  | some e => rfl
  | none =>
    cases buildRecord pf record with
    | none => rfl
    | some itd =>
      dsimp only
      cases validateTaxValues tbl itd with
      | some e => rfl
      | none => rfl

/-- The loop runs through rows that all give an outcome, appending the outcomes in
order, and goes on with the rows after them. -/
theorem rowLoop_append_details (tbl : Char → Char) (pf : Parser)
    (taxCalculate : IncomeTaxDetail → TaxResult) (rows : List (List String))
    (ds : List TaxCsvResultDetail)
    (h : List.Forall₂ (fun r d => rowStep tbl pf taxCalculate r = .detail d) rows ds)
    (more : List (List String)) (i : Nat) (hi : i ≠ 0) (result : TaxCsvResult) :
    rowLoop tbl pf taxCalculate i (rows ++ more) result =
      rowLoop tbl pf taxCalculate (i + rows.length) more
        { Taxes := result.Taxes ++ ds } := by
  induction h generalizing i result with
  | nil => simp
  | cons hrd _ ih =>
    rw [List.cons_append, rowLoop_cons tbl pf taxCalculate i hi, hrd]
    simp only []
    rw [ih (i + 1) (Nat.succ_ne_zero i)]
    simp [Nat.add_assoc, Nat.add_comm 1]

/-- Rows that all give an outcome have a list of outcomes, one per row in order. -/
theorem exists_details (tbl : Char → Char) (pf : Parser)
    (taxCalculate : IncomeTaxDetail → TaxResult) (rows : List (List String))
    (h : ∀ r ∈ rows, ∃ d, rowStep tbl pf taxCalculate r = .detail d) :
    ∃ ds, List.Forall₂ (fun r d => rowStep tbl pf taxCalculate r = .detail d) rows ds := by
  induction rows with
  | nil => exact ⟨[], List.Forall₂.nil⟩
  | cons r rest ih =>
    obtain ⟨d, hd⟩ := h r (List.mem_cons_self r rest)
    obtain ⟨ds, hds⟩ := ih (fun r' hr' => h r' (List.mem_cons_of_mem r hr'))
    exact ⟨d :: ds, List.Forall₂.cons hd hds⟩

/-- Two lists related element by element are related at every index. -/
theorem forall₂_getElem? {α β : Type} (R : α → β → Prop) (xs : List α) (ys : List β)
    (h : List.Forall₂ R xs ys) (i : Nat) (x : α) (hx : xs[i]? = some x) :
    ∃ y, ys[i]? = some y ∧ R x y := by
  induction h generalizing i with
  | nil => simp at hx
  | cons hxy _ ih =>
    cases i with
    | zero =>
      simp only [List.getElem?_cons_zero, Option.some.injEq] at hx
      subst hx
      exact ⟨_, by simp, hxy⟩
    | succ j =>
      simp only [List.getElem?_cons_succ] at hx ⊢
      exact ih j hx

/-- The outcome always carries the income it was given. -/
theorem classify_TotalIncome (totalIncome : F64) (taxCal : TaxResult) :
    (classify totalIncome taxCal).TotalIncome = totalIncome := by
  unfold classify
  split_ifs <;> rfl

/-- The batch stops at the first row whose pass ends in an error when the rows pass the
reader and the rows before it all give an outcome: the reply is that error, whatever
the rows after it are. -/
theorem TaxUploadCsvHandler_first_error (tbl : Char → Char) (pf : Parser)
    (taxCalculate : IncomeTaxDetail → TaxResult) (header : List String)
    (good : List (List String)) (bad : List String) (rest : List (List String)) (err : Err)
    (hcount : readAllLoop header.length (good ++ bad :: rest) = none)
    (hgood : ∀ r ∈ good, ∃ d, rowStep tbl pf taxCalculate r = .detail d)
    (hbad : rowStep tbl pf taxCalculate bad = .error err) :
    TaxUploadCsvHandler tbl pf taxCalculate (header :: (good ++ bad :: rest)) =
      .badRequest err := by
  obtain ⟨ds, hds⟩ := exists_details tbl pf taxCalculate good hgood
  rw [TaxUploadCsvHandler_cons, hcount]
  simp only []
  rw [rowLoop_append_details tbl pf taxCalculate good ds hds (bad :: rest) 1 one_ne_zero,
    rowLoop_cons tbl pf taxCalculate _ (by omega), hbad]

/-- The pass on a row of three fields or more does not panic. -/
theorem rowStep_ne_panic (tbl : Char → Char) (pf : Parser)
    (taxCalculate : IncomeTaxDetail → TaxResult) (record : List String)
    (hlen : 3 ≤ record.length) :
    rowStep tbl pf taxCalculate record ≠ .panicIndexOutOfRange := by
  match record, hlen with
  | r0 :: r1 :: r2 :: extra, _ =>
    have hb : buildRecord pf (r0 :: r1 :: r2 :: extra) =
        some ⟨(pf r0).1, (pf r1).1, [⟨"donation", (pf r2).1⟩]⟩ := by
      simp [buildRecord]
    simp only [rowStep, hb]
    cases validateCsvData pf (r0 :: r1 :: r2 :: extra) with
    | some e => simp
    | none =>
      dsimp only
      cases validateTaxValues tbl ⟨(pf r0).1, (pf r1).1, [⟨"donation", (pf r2).1⟩]⟩ <;> simp

/-- The reply of line 101 is never the panic. -/
theorem replyOK_ne_panic (result : TaxCsvResult) : replyOK result ≠ .panicIndexOutOfRange := by
  unfold replyOK
  split_ifs <;> simp

/-- The loop over rows of three fields or more does not panic. -/
theorem rowLoop_ne_panic (tbl : Char → Char) (pf : Parser)
    (taxCalculate : IncomeTaxDetail → TaxResult) (rows : List (List String))
    (hlen : ∀ r ∈ rows, 3 ≤ r.length) (i : Nat) (result : TaxCsvResult) :
    rowLoop tbl pf taxCalculate i rows result ≠ .panicIndexOutOfRange := by
  induction rows generalizing i result with
  | nil => simpa [rowLoop] using replyOK_ne_panic result
  | cons r rest ih =>
    have hrest : ∀ r' ∈ rest, 3 ≤ r'.length := fun r' hr' =>
      hlen r' (List.mem_cons_of_mem r hr')
    by_cases hi : i = 0
    · subst hi
      simpa [rowLoop] using ih hrest 1 result
    · rw [rowLoop_cons tbl pf taxCalculate i hi]
      have hp := rowStep_ne_panic tbl pf taxCalculate r (hlen r (List.mem_cons_self r rest))
      cases hs : rowStep tbl pf taxCalculate r with
      | error e => simp
      | detail d => exact ih hrest (i + 1) _
      | panicIndexOutOfRange => exact absurd hs hp

/-- The outcome holds finite numbers when the income and `TotalTax` are finite. -/
theorem classify_isFinite (totalIncome : F64) (taxCal : TaxResult)
    (hi : totalIncome.isFinite = true) (ht : taxCal.TotalTax.isFinite = true) :
    (classify totalIncome taxCal).TotalIncome.isFinite = true ∧
      (classify totalIncome taxCal).Tax.isFinite = true ∧
      (classify totalIncome taxCal).TaxRefund.isFinite = true := by
  obtain ⟨x⟩ := taxCal
  cases x with
  | fin q =>
    unfold classify
    split_ifs <;> exact ⟨hi, rfl, rfl⟩
  | nan => simp [F64.isFinite] at ht
  | negInf => simp [F64.isFinite] at ht
  | posInf => simp [F64.isFinite] at ht

/-- Two lists related element by element: every element of the second is related to
an element of the first. -/
theorem forall₂_mem_right {α β : Type} (R : α → β → Prop) (xs : List α) (ys : List β)
    (h : List.Forall₂ R xs ys) (y : β) (hy : y ∈ ys) : ∃ x ∈ xs, R x y := by
  induction h with
  | nil => simp at hy
  | cons hxy _ ih =>
    rcases List.mem_cons.1 hy with rfl | hy'
    · exact ⟨_, List.mem_cons_self _ _, hxy⟩
    · obtain ⟨x, hx, hr⟩ := ih hy'
      exact ⟨x, List.mem_cons_of_mem _ hx, hr⟩

/-- A row of three fields that passes both validations gives the outcome computed from
the record of its three parsed fields. -/
theorem rowStep_of_valid (tbl : Char → Char) (pf : Parser)
    (taxCalculate : IncomeTaxDetail → TaxResult) (r : List String)
    (hlen : r.length = 3) (hcsv : validateCsvData pf r = none)
    (hval : ∃ itd, buildRecord pf r = some itd ∧ validateTaxValues tbl itd = none) :
    ∃ f0 itd, r[0]? = some f0 ∧ buildRecord pf r = some itd ∧ itd.TotalIncome = (pf f0).1 ∧
      rowStep tbl pf taxCalculate r = .detail (classify (pf f0).1 (taxCalculate itd)) := by
  obtain ⟨itd, hb, hv⟩ := hval
  match r, hlen with
  | [f0, f1, f2], _ =>
    have hb3 : buildRecord pf [f0, f1, f2] =
        some ⟨(pf f0).1, (pf f1).1, [⟨"donation", (pf f2).1⟩]⟩ := by
      simp [buildRecord]
    rw [hb3] at hb
    cases hb
    refine ⟨f0, _, by simp, hb3, rfl, ?_⟩
    simp only [rowStep, hcsv, hb3, hv]

/-! ## Claims on validateTaxValues -/

/-- C1, evaluated at a record with a NaN income: the row `NaN,0,0` passes
`validateCsvData`, the batch path builds the record `TotalIncome = NaN`,
`WithHoldingTax = 0`, `Allowances = [donation 0]` from it, and `validateTaxValues`
accepts that record although `0 <= WithHoldingTax <= TotalIncome` does not hold. -/
theorem validateTaxValues_accepts_nan_income :
    validateCsvData digitsParser ["NaN", "0", "0"] = none ∧
      buildRecord digitsParser ["NaN", "0", "0"] =
        some ⟨.nan, .fin 0, [⟨"donation", .fin 0⟩]⟩ ∧
      validateTaxValues asciiCaseTable ⟨.nan, .fin 0, [⟨"donation", .fin 0⟩]⟩ = none ∧
      ¬ Invariant asciiCaseTable ⟨.nan, .fin 0, [⟨"donation", .fin 0⟩]⟩ := by
  refine ⟨by decide, by decide, by decide, by decide⟩

/-- C2: a record with `TotalIncome >= 0`, `WithHoldingTax >= 0` and
`WithHoldingTax > TotalIncome` is rejected, whatever its allowances are, with the
error that carries the withholding value and the income value. -/
theorem validateTaxValues_wht_greater_than_income (tbl : Char → Char) (t : IncomeTaxDetail)
    (hincome : 0 ≤ t.TotalIncome) (hwht : 0 ≤ t.WithHoldingTax)
    (hgt : t.WithHoldingTax > t.TotalIncome) :
    validateTaxValues tbl t = some (.whtGreaterThanIncome t.WithHoldingTax t.TotalIncome) := by
  unfold validateTaxValues
  rw [if_neg (F64.not_lt_of_le hincome), if_neg (F64.not_lt_of_le hwht), if_pos hgt]

theorem validateTaxValues_wht_greater_than_income_witness :
    validateTaxValues asciiCaseTable ⟨.fin 1000, .fin 1500, [⟨"bonus", .fin (-1)⟩]⟩ =
      some (.whtGreaterThanIncome (.fin 1500) (.fin 1000)) :=
  validateTaxValues_wht_greater_than_income asciiCaseTable
    ⟨.fin 1000, .fin 1500, [⟨"bonus", .fin (-1)⟩]⟩ (by decide) (by decide) (by decide)

/-- C3: a record holding, at any position, an allowance whose type is not exactly
`donation` and whose lower-cased type contains neither `personal` nor `receipt` is
rejected, whatever the amount of that allowance and the other fields are. -/
theorem validateTaxValues_rejects_unrecognized_type (tbl : Char → Char) (t : IncomeTaxDetail)
    (a : Allowance) (ha : a ∈ t.Allowances)
    (hdonation : a.AllowanceType ≠ "donation")
    (hpersonal : Contains (ToLower tbl a.AllowanceType) "personal" = false)
    (hreceipt : Contains (ToLower tbl a.AllowanceType) "receipt" = false) :
    ∃ err, validateTaxValues tbl t = some err := by
  apply Option.ne_none_iff_exists'.1
  apply validateTaxValues_ne_none_of_mem tbl t a ha
  left
  simp [recognizedType, hpersonal, hreceipt, hdonation]

theorem validateTaxValues_rejects_unrecognized_type_witness :
    (∃ err, validateTaxValues asciiCaseTable
        ⟨.fin 100, .fin 10, [⟨"donation", .fin 5⟩, ⟨"Donation", .fin 5⟩]⟩ = some err) ∧
      (∃ err, validateTaxValues asciiCaseTable
        ⟨.fin 100, .fin 10, [⟨"bonus", .fin 0⟩, ⟨"donation", .fin 5⟩]⟩ = some err) :=
  ⟨validateTaxValues_rejects_unrecognized_type asciiCaseTable
      ⟨.fin 100, .fin 10, [⟨"donation", .fin 5⟩, ⟨"Donation", .fin 5⟩]⟩ ⟨"Donation", .fin 5⟩
      (by decide) (by decide) (by decide) (by decide),
    validateTaxValues_rejects_unrecognized_type asciiCaseTable
      ⟨.fin 100, .fin 10, [⟨"bonus", .fin 0⟩, ⟨"donation", .fin 5⟩]⟩ ⟨"bonus", .fin 0⟩
      (by decide) (by decide) (by decide) (by decide)⟩

/-- C4: a record holding, at any position, an allowance of a recognized type (its
lower-cased type contains `personal` or `receipt`, or its type is `donation`) with a
negative amount is rejected. -/
theorem validateTaxValues_rejects_negative_amount (tbl : Char → Char) (t : IncomeTaxDetail)
    (a : Allowance) (ha : a ∈ t.Allowances)
    (_hrecognized : Contains (ToLower tbl a.AllowanceType) "personal" = true ∨
      Contains (ToLower tbl a.AllowanceType) "receipt" = true ∨
      a.AllowanceType = "donation")
    (hneg : a.Amount < 0) :
    ∃ err, validateTaxValues tbl t = some err :=
  Option.ne_none_iff_exists'.1 (validateTaxValues_ne_none_of_mem tbl t a ha (Or.inr hneg))

theorem validateTaxValues_rejects_negative_amount_witness :
    ∃ err, validateTaxValues asciiCaseTable
      ⟨.fin 100, .fin 10, [⟨"Personal", .fin 5⟩, ⟨"donation", .fin (-5)⟩]⟩ = some err :=
  validateTaxValues_rejects_negative_amount asciiCaseTable
    ⟨.fin 100, .fin 10, [⟨"Personal", .fin 5⟩, ⟨"donation", .fin (-5)⟩]⟩
    ⟨"donation", .fin (-5)⟩ (by decide) (by decide) (by decide)

/-- C5: the scalar rules come first and in order. A negative `TotalIncome` gives the
negative-income error with the income, whatever the rest is; `TotalIncome >= 0` with a
negative `WithHoldingTax` gives the negative-wht error with the withholding, whatever
the allowances are; and a record on which one of the three scalar comparisons is true
gets one of the three scalar errors, never an allowance error. -/
theorem validateTaxValues_scalar_rules_first (tbl : Char → Char) (t : IncomeTaxDetail) :
    (t.TotalIncome < 0 →
        validateTaxValues tbl t = some (.negativeTotalIncome t.TotalIncome)) ∧
      (0 ≤ t.TotalIncome → t.WithHoldingTax < 0 →
        validateTaxValues tbl t = some (.negativeWht t.WithHoldingTax)) ∧
      (t.TotalIncome < 0 ∨ t.WithHoldingTax < 0 ∨ t.WithHoldingTax > t.TotalIncome →
        validateTaxValues tbl t = some (.negativeTotalIncome t.TotalIncome) ∨
        validateTaxValues tbl t = some (.negativeWht t.WithHoldingTax) ∨
        validateTaxValues tbl t =
          some (.whtGreaterThanIncome t.WithHoldingTax t.TotalIncome)) := by
  unfold validateTaxValues
  refine ⟨fun h => by rw [if_pos h], fun h0 h1 => ?_, fun h => ?_⟩
  · rw [if_neg (F64.not_lt_of_le h0), if_pos h1]
  · by_cases h1 : t.TotalIncome < 0
    · left; rw [if_pos h1]
    · by_cases h2 : t.WithHoldingTax < 0
      · right; left; rw [if_neg h1, if_pos h2]
      · have h3 : t.WithHoldingTax > t.TotalIncome := by
          rcases h with h | h | h
          · exact absurd h h1
          · exact absurd h h2
          · exact h
        right; right; rw [if_neg h1, if_neg h2, if_pos h3]

theorem validateTaxValues_scalar_rules_first_witness :
    validateTaxValues asciiCaseTable ⟨.fin (-1), .fin (-5), [⟨"bonus", .fin (-2)⟩]⟩ =
        some (.negativeTotalIncome (.fin (-1))) ∧
      validateTaxValues asciiCaseTable ⟨.fin 10, .fin (-5), [⟨"bonus", .fin (-2)⟩]⟩ =
        some (.negativeWht (.fin (-5))) ∧
      (validateTaxValues asciiCaseTable ⟨.fin 10, .fin 20, [⟨"bonus", .fin (-2)⟩]⟩ =
          some (.negativeTotalIncome (.fin 10)) ∨
        validateTaxValues asciiCaseTable ⟨.fin 10, .fin 20, [⟨"bonus", .fin (-2)⟩]⟩ =
          some (.negativeWht (.fin 20)) ∨
        validateTaxValues asciiCaseTable ⟨.fin 10, .fin 20, [⟨"bonus", .fin (-2)⟩]⟩ =
          some (.whtGreaterThanIncome (.fin 20) (.fin 10))) :=
  ⟨(validateTaxValues_scalar_rules_first asciiCaseTable
      ⟨.fin (-1), .fin (-5), [⟨"bonus", .fin (-2)⟩]⟩).1 (by decide),
    (validateTaxValues_scalar_rules_first asciiCaseTable
      ⟨.fin 10, .fin (-5), [⟨"bonus", .fin (-2)⟩]⟩).2.1 (by decide) (by decide),
    (validateTaxValues_scalar_rules_first asciiCaseTable
      ⟨.fin 10, .fin 20, [⟨"bonus", .fin (-2)⟩]⟩).2.2 (by decide)⟩

/-! ## Claims on validateCsvData and the batch loop -/

/-- C6, as the claim states it, fails: under a header of four fields a data row of four
fields is not rejected, its fourth field is dropped and the reply is a success; and
under a header of two fields a data row of two numeric fields passes `validateCsvData`
and then runs the read `record[2]` out of range. -/
theorem TaxUploadCsvHandler_no_field_count_check :
    TaxUploadCsvHandler asciiCaseTable digitsParser refundAll
        [["totalIncome", "wht", "donation", "extra"], ["2", "1", "3", "4"]] =
        .ok { Taxes := [{ TotalIncome := .fin 2, TaxRefund := .fin 1 }] } ∧
      TaxUploadCsvHandler asciiCaseTable digitsParser refundAll
        [["totalIncome", "wht"], ["2", "1"]] = .panicIndexOutOfRange := by
  constructor <;> decide

/-- C6, amended: the number of fields a row must have is the one of the header row, not
three. An input with a row of another length than the header is rejected with the
structural error of the reader, wrong number of fields; so under a header of three
fields every row that does not have exactly three fields is rejected and no read of
fields 0, 1 and 2 runs out of range. A row as long as the header is rejected with the
error of `validateCsvData` when one of its fields is blank or does not parse; under a
header of more than three fields, a row as long as the header that passes
`validateCsvData` is processed from its fields 0, 1 and 2 alone. -/
theorem TaxUploadCsvHandler_field_count (tbl : Char → Char) (pf : Parser)
    (taxCalculate : IncomeTaxDetail → TaxResult) (header : List String)
    (hheader : header ≠ []) :
    (∀ rows : List (List String), (∃ r ∈ rows, r.length ≠ header.length) →
        TaxUploadCsvHandler tbl pf taxCalculate (header :: rows) =
          .badRequest .wrongNumberOfFields) ∧
      (header.length = 3 → ∀ rows : List (List String),
        TaxUploadCsvHandler tbl pf taxCalculate (header :: rows) ≠ .panicIndexOutOfRange) ∧
      (∀ (record : List String) (err : Err), record.length = header.length →
        validateCsvData pf record = some err →
        TaxUploadCsvHandler tbl pf taxCalculate [header, record] = .badRequest err) ∧
      (∀ (f0 f1 f2 : String) (extra : List String),
        (f0 :: f1 :: f2 :: extra).length = header.length →
        validateCsvData pf (f0 :: f1 :: f2 :: extra) = none →
        TaxUploadCsvHandler tbl pf taxCalculate [header, f0 :: f1 :: f2 :: extra] =
          match validateTaxValues tbl ⟨(pf f0).1, (pf f1).1, [⟨"donation", (pf f2).1⟩]⟩ with
          | some err => .badRequest err
          | none => replyOK ⟨[classify (pf f0).1
              (taxCalculate ⟨(pf f0).1, (pf f1).1, [⟨"donation", (pf f2).1⟩]⟩)]⟩) := by
  have hpos : 0 < header.length := List.length_pos.2 hheader
  refine ⟨?_, ?_, ?_, ?_⟩
  · intro rows hex
    rw [TaxUploadCsvHandler_cons]
    cases hr : readAllLoop header.length rows with
    | none =>
      obtain ⟨r, hmem, hne⟩ := hex
      exact absurd ((readAllLoop_eq_none_iff _ hpos rows).1 hr r hmem) hne
    | some err => rw [readAllLoop_eq_some _ rows err hr]
  · intro h3 rows
    rw [TaxUploadCsvHandler_cons]
    cases hr : readAllLoop header.length rows with
    | some err => simp
    | none =>
      have hall := (readAllLoop_eq_none_iff _ hpos rows).1 hr
      exact rowLoop_ne_panic tbl pf taxCalculate rows
        (fun r hmem => by rw [hall r hmem, h3]) 1 _
  · intro record err hlen hv
    rw [TaxUploadCsvHandler_one_row tbl pf taxCalculate header record hlen, hv]
  · intro f0 f1 f2 extra hlen hv
    have hb : buildRecord pf (f0 :: f1 :: f2 :: extra) =
        some ⟨(pf f0).1, (pf f1).1, [⟨"donation", (pf f2).1⟩]⟩ := by
      simp [buildRecord]
    rw [TaxUploadCsvHandler_one_row tbl pf taxCalculate header _ hlen, hv, hb]

theorem TaxUploadCsvHandler_field_count_witness :
    TaxUploadCsvHandler asciiCaseTable digitsParser refundAll
        (["totalIncome", "wht", "donation"] :: [["2", "1", "3"], ["2", "1", "3", "4"]]) =
        .badRequest .wrongNumberOfFields ∧
      TaxUploadCsvHandler asciiCaseTable digitsParser refundAll
        (["totalIncome", "wht", "donation"] :: [["2", "1"]]) ≠ .panicIndexOutOfRange ∧
      TaxUploadCsvHandler asciiCaseTable digitsParser refundAll
        [["totalIncome", "wht", "donation"], ["2", " ", "3"]] =
        .badRequest .allValuesNonEmpty ∧
      TaxUploadCsvHandler asciiCaseTable digitsParser refundAll
          [["totalIncome", "wht", "donation", "extra"], ["2", "1", "3", "4"]] =
        (match validateTaxValues asciiCaseTable
            ⟨(digitsParser "2").1, (digitsParser "1").1,
              [⟨"donation", (digitsParser "3").1⟩]⟩ with
          | some err => .badRequest err
          | none => replyOK ⟨[classify (digitsParser "2").1
              (refundAll ⟨(digitsParser "2").1, (digitsParser "1").1,
                [⟨"donation", (digitsParser "3").1⟩]⟩)]⟩) :=
  ⟨(TaxUploadCsvHandler_field_count asciiCaseTable digitsParser refundAll
      ["totalIncome", "wht", "donation"] (by decide)).1
      [["2", "1", "3"], ["2", "1", "3", "4"]] ⟨["2", "1", "3", "4"], by decide, by decide⟩,
    (TaxUploadCsvHandler_field_count asciiCaseTable digitsParser refundAll
      ["totalIncome", "wht", "donation"] (by decide)).2.1 (by decide) [["2", "1"]],
    (TaxUploadCsvHandler_field_count asciiCaseTable digitsParser refundAll
      ["totalIncome", "wht", "donation"] (by decide)).2.2.1 ["2", " ", "3"]
      .allValuesNonEmpty (by decide) (by decide),
    (TaxUploadCsvHandler_field_count asciiCaseTable digitsParser refundAll
      ["totalIncome", "wht", "donation", "extra"] (by decide)).2.2.2 "2" "1" "3" ["4"]
      (by decide) (by decide)⟩

/-- C7: the blank-field check covers the whole row before any field is parsed: a row
with a field that is empty after trimming gets the non-empty error, also when an
earlier field is not a number. -/
theorem validateCsvData_blank_field (pf : Parser) (record : List String)
    (h : ∃ field ∈ record, TrimSpace field = "") :
    validateCsvData pf record = some .allValuesNonEmpty := by
  unfold validateCsvData
  cases h1 : emptyLoop record with
  | some e => rw [emptyLoop_eq_some record e h1]
  | none =>
    obtain ⟨field, hmem, hblank⟩ := h
    exact absurd hblank ((emptyLoop_eq_none_iff record).1 h1 field hmem)

theorem validateCsvData_blank_field_witness :
    (digitsParser "abc").2 = some .errSyntax ∧
      validateCsvData digitsParser ["abc", "  ", "50"] = some .allValuesNonEmpty :=
  ⟨by decide,
    validateCsvData_blank_field digitsParser ["abc", "  ", "50"] ⟨"  ", by decide, by decide⟩⟩

/-- C8: a row whose fields are all non-empty after trimming and one of whose fields
does not parse gets the invalid-format error. -/
theorem validateCsvData_invalid_format (pf : Parser) (record : List String)
    (hnonblank : ∀ field ∈ record, TrimSpace field ≠ "")
    (hbad : ∃ field ∈ record, (pf field).2 ≠ none) :
    validateCsvData pf record = some .invalidFormat := by
  unfold validateCsvData
  rw [(emptyLoop_eq_none_iff record).2 hnonblank]
  cases h2 : formatLoop pf record with
  | some e => rw [formatLoop_eq_some pf record e h2]
  | none =>
    obtain ⟨field, hmem, hf⟩ := hbad
    exact absurd ((formatLoop_eq_none_iff pf record).1 h2 field hmem) hf

theorem validateCsvData_invalid_format_witness :
    validateCsvData digitsParser ["abc", "100", "50"] = some .invalidFormat :=
  validateCsvData_invalid_format digitsParser ["abc", "100", "50"] (by decide)
    ⟨"abc", by decide, by decide⟩

/-- C9: for a row of three fields that `validateCsvData` accepts, each of the three
fields parses without error, and the batch path builds the record whose `TotalIncome`
is the value of field 0, whose `WithHoldingTax` is the value of field 1 and whose
`Allowances` is the single allowance `donation` with the value of field 2; that record
is the one the loop body validates and hands to `taxCalculate`, and under a header of
three fields the reply to the row is the reply for that record. -/
theorem buildRecord_of_valid_row (tbl : Char → Char) (pf : Parser)
    (taxCalculate : IncomeTaxDetail → TaxResult) (header : List String) (f0 f1 f2 : String)
    (h : validateCsvData pf [f0, f1, f2] = none) :
    ∃ v0 v1 v2, pf f0 = (v0, none) ∧ pf f1 = (v1, none) ∧ pf f2 = (v2, none) ∧
      buildRecord pf [f0, f1, f2] =
        some { TotalIncome := v0, WithHoldingTax := v1,
               Allowances := [{ AllowanceType := "donation", Amount := v2 }] } ∧
      rowStep tbl pf taxCalculate [f0, f1, f2] =
        (match validateTaxValues tbl ⟨v0, v1, [⟨"donation", v2⟩]⟩ with
          | some err => .error err
          | none => .detail (classify v0 (taxCalculate ⟨v0, v1, [⟨"donation", v2⟩]⟩))) ∧
      (header.length = 3 →
        TaxUploadCsvHandler tbl pf taxCalculate [header, [f0, f1, f2]] =
          match validateTaxValues tbl ⟨v0, v1, [⟨"donation", v2⟩]⟩ with
          | some err => .badRequest err
          | none => replyOK ⟨[classify v0 (taxCalculate ⟨v0, v1, [⟨"donation", v2⟩]⟩)]⟩) := by
  have hp := ((validateCsvData_eq_none_iff pf [f0, f1, f2]).1 h).2
  have h0 : (pf f0).2 = none := hp f0 (by simp)
  have h1 : (pf f1).2 = none := hp f1 (by simp)
  have h2 : (pf f2).2 = none := hp f2 (by simp)
  have hb : buildRecord pf [f0, f1, f2] =
      some ⟨(pf f0).1, (pf f1).1, [⟨"donation", (pf f2).1⟩]⟩ := by
    simp [buildRecord]
  refine ⟨(pf f0).1, (pf f1).1, (pf f2).1, ?_, ?_, ?_, hb, ?_, ?_⟩
  · exact Prod.ext rfl h0
  · exact Prod.ext rfl h1
  · exact Prod.ext rfl h2
  · simp only [rowStep, h, hb]
  · intro hlen
    rw [TaxUploadCsvHandler_one_row tbl pf taxCalculate header [f0, f1, f2] hlen.symm, h, hb]

theorem buildRecord_of_valid_row_witness :
    ∃ v0 v1 v2, digitsParser "300" = (v0, none) ∧ digitsParser "20" = (v1, none) ∧
      digitsParser "1" = (v2, none) ∧
      buildRecord digitsParser ["300", "20", "1"] =
        some { TotalIncome := v0, WithHoldingTax := v1,
               Allowances := [{ AllowanceType := "donation", Amount := v2 }] } ∧
      rowStep asciiCaseTable digitsParser refundAll ["300", "20", "1"] =
        (match validateTaxValues asciiCaseTable ⟨v0, v1, [⟨"donation", v2⟩]⟩ with
          | some err => .error err
          | none => .detail (classify v0 (refundAll ⟨v0, v1, [⟨"donation", v2⟩]⟩))) ∧
      ((["totalIncome", "wht", "donation"] : List String).length = 3 →
        TaxUploadCsvHandler asciiCaseTable digitsParser refundAll
            [["totalIncome", "wht", "donation"], ["300", "20", "1"]] =
          match validateTaxValues asciiCaseTable ⟨v0, v1, [⟨"donation", v2⟩]⟩ with
          | some err => .badRequest err
          | none => replyOK ⟨[classify v0 (refundAll ⟨v0, v1, [⟨"donation", v2⟩]⟩)]⟩) :=
  buildRecord_of_valid_row asciiCaseTable digitsParser refundAll
    ["totalIncome", "wht", "donation"] "300" "20" "1" (by decide)

/-- C10, as the claim states it, fails: replacing a first row of three fields by one of
two fields changes the reply to the same data row from a success to the error of the
reader, which takes the number of fields of every row from the first row. -/
theorem TaxUploadCsvHandler_header_length_matters :
    TaxUploadCsvHandler asciiCaseTable digitsParser refundAll
        [["totalIncome", "wht", "donation"], ["2", "1", "3"]] =
        .ok { Taxes := [{ TotalIncome := .fin 2, TaxRefund := .fin 1 }] } ∧
      TaxUploadCsvHandler asciiCaseTable digitsParser refundAll
        [["totalIncome", "wht"], ["2", "1", "3"]] = .badRequest .wrongNumberOfFields := by
  constructor <;> decide

/-- C10, amended: the loop skips the first row and its contents are never parsed or
validated: an input of one row, whatever the row is, gets a success with no outcome,
and replacing the first row of an input by any other row with the same number of
fields leaves the reply unchanged. -/
theorem TaxUploadCsvHandler_skips_header (tbl : Char → Char) (pf : Parser)
    (taxCalculate : IncomeTaxDetail → TaxResult) :
    (∀ header : List String,
        TaxUploadCsvHandler tbl pf taxCalculate [header] = .ok { Taxes := [] }) ∧
      (∀ (header other : List String) (rest : List (List String)),
        other.length = header.length →
        TaxUploadCsvHandler tbl pf taxCalculate (header :: rest) =
          TaxUploadCsvHandler tbl pf taxCalculate (other :: rest)) := by
  constructor
  · intro header
    rw [TaxUploadCsvHandler_cons]
    rfl
  · intro header other rest hlen
    rw [TaxUploadCsvHandler_cons, TaxUploadCsvHandler_cons, hlen]

theorem TaxUploadCsvHandler_skips_header_witness :
    TaxUploadCsvHandler asciiCaseTable digitsParser refundAll
        (["totalIncome", "wht", "donation"] :: [["2", "1", "3"], ["abc", "1", "3"]]) =
      TaxUploadCsvHandler asciiCaseTable digitsParser refundAll
        (["abc", "", " 1 2"] :: [["2", "1", "3"], ["abc", "1", "3"]]) :=
  (TaxUploadCsvHandler_skips_header asciiCaseTable digitsParser refundAll).2
    ["totalIncome", "wht", "donation"] ["abc", "", " 1 2"]
    [["2", "1", "3"], ["abc", "1", "3"]] (by decide)

/-! ## Claims on the batch as a whole -/

/-- C11, evaluated at a two-column input: the first data row passes `validateCsvData`,
the second one fails it with the invalid-format error, and the reply is not that error:
the loop panics on the first data row, at the read of `record[2]`. -/
theorem TaxUploadCsvHandler_panics_before_first_error :
    validateCsvData digitsParser ["1", "2"] = none ∧
      validateCsvData digitsParser ["abc", "3"] = some .invalidFormat ∧
      TaxUploadCsvHandler asciiCaseTable digitsParser refundAll
        [["totalIncome", "wht"], ["1", "2"], ["abc", "3"]] = .panicIndexOutOfRange := by
  refine ⟨by decide, by decide, by decide⟩

/-- C12, as the claim states it, fails. Under a header of two fields a data row of
three fields that passes both validations is rejected by the reader. And under a
header of three fields the rows `Inf,0,0` and `NaN,0,0` have three fields and pass both
validations, the first one with a record that satisfies the invariant, and the reply is
the failure to encode the result, with no outcome. -/
theorem TaxUploadCsvHandler_valid_rows_not_enough :
    (validateCsvData digitsParser ["300", "20", "1"] = none ∧
        buildRecord digitsParser ["300", "20", "1"] =
          some ⟨.fin 300, .fin 20, [⟨"donation", .fin 1⟩]⟩ ∧
        validateTaxValues asciiCaseTable ⟨.fin 300, .fin 20, [⟨"donation", .fin 1⟩]⟩ = none ∧
        TaxUploadCsvHandler asciiCaseTable digitsParser refundAll
          [["totalIncome", "wht"], ["300", "20", "1"]] = .badRequest .wrongNumberOfFields) ∧
      (validateCsvData digitsParser ["Inf", "0", "0"] = none ∧
        buildRecord digitsParser ["Inf", "0", "0"] =
          some ⟨.posInf, .fin 0, [⟨"donation", .fin 0⟩]⟩ ∧
        validateTaxValues asciiCaseTable ⟨.posInf, .fin 0, [⟨"donation", .fin 0⟩]⟩ = none ∧
        Invariant asciiCaseTable ⟨.posInf, .fin 0, [⟨"donation", .fin 0⟩]⟩ ∧
        TaxUploadCsvHandler asciiCaseTable digitsParser refundAll
          [["totalIncome", "wht", "donation"], ["Inf", "0", "0"]] = .encodeError) ∧
      (validateCsvData digitsParser ["NaN", "0", "0"] = none ∧
        TaxUploadCsvHandler asciiCaseTable digitsParser refundAll
          [["totalIncome", "wht", "donation"], ["NaN", "0", "0"]] = .encodeError) := by
  refine ⟨⟨by decide, by decide, by decide, by decide⟩,
    ⟨by decide, by decide, by decide, by decide, by decide⟩, ⟨by decide, by decide⟩⟩

/-- C12, amended: when the header row and every data row have three fields, every data
row passes `validateCsvData` and `validateTaxValues`, and for every data row the parsed
income and the `TotalTax` of its record are finite, the reply to an input of `n` rows
is a success with `n - 1` outcomes, and outcome `i` is the one computed from row
`i + 1`: its `TotalIncome` is the parsed value of field 0 of that row. -/
theorem TaxUploadCsvHandler_all_rows_valid (tbl : Char → Char) (pf : Parser)
    (taxCalculate : IncomeTaxDetail → TaxResult) (header : List String)
    (rows : List (List String)) (hheader : header.length = 3)
    (h : ∀ r ∈ rows, r.length = 3 ∧ validateCsvData pf r = none ∧
      ∃ itd, buildRecord pf r = some itd ∧ validateTaxValues tbl itd = none ∧
        itd.TotalIncome.isFinite = true ∧ (taxCalculate itd).TotalTax.isFinite = true) :
    ∃ taxes, TaxUploadCsvHandler tbl pf taxCalculate (header :: rows) = .ok ⟨taxes⟩ ∧
      taxes.length = (header :: rows).length - 1 ∧
      ∀ i r, (header :: rows)[i + 1]? = some r →
        ∃ d f0 itd, taxes[i]? = some d ∧ r[0]? = some f0 ∧ buildRecord pf r = some itd ∧
          d = classify itd.TotalIncome (taxCalculate itd) ∧ d.TotalIncome = (pf f0).1 := by
  have hvalid : ∀ r ∈ rows, ∃ itd, buildRecord pf r = some itd ∧
      validateTaxValues tbl itd = none := by
    intro r hr
    obtain ⟨_, _, itd, hb, hv, _⟩ := h r hr
    exact ⟨itd, hb, hv⟩
  have hstep : ∀ r ∈ rows, ∃ d, rowStep tbl pf taxCalculate r = .detail d := by
    intro r hr
    obtain ⟨hlen, hcsv, _⟩ := h r hr
    obtain ⟨f0, itd, _, _, _, hs⟩ :=
      rowStep_of_valid tbl pf taxCalculate r hlen hcsv (hvalid r hr)
    exact ⟨_, hs⟩
  obtain ⟨ds, hds⟩ := exists_details tbl pf taxCalculate rows hstep
  have hcount : readAllLoop header.length rows = none := by
    rw [readAllLoop_eq_none_iff _ (by omega)]
    intro r hr
    rw [(h r hr).1, hheader]
  have henc : encodable ⟨ds⟩ = true := by
    simp only [encodable, List.all_eq_true, Bool.and_eq_true]
    intro d hd
    obtain ⟨r, hr, hrd⟩ := forall₂_mem_right _ rows ds hds d hd
    obtain ⟨hlen, hcsv, itd, hb, hv, hfi, hft⟩ := h r hr
    obtain ⟨f0, itd', _, hb', hti, hs⟩ :=
      rowStep_of_valid tbl pf taxCalculate r hlen hcsv ⟨itd, hb, hv⟩
    rw [hb] at hb'
    cases hb'
    rw [hs] at hrd
    cases hrd
    rw [← hti]
    obtain ⟨g1, g2, g3⟩ := classify_isFinite itd.TotalIncome (taxCalculate itd) hfi hft
    exact ⟨⟨g1, g2⟩, g3⟩
  refine ⟨ds, ?_, ?_, ?_⟩
  · have := rowLoop_append_details tbl pf taxCalculate rows ds hds [] 1 one_ne_zero
      { Taxes := [] }
    rw [List.append_nil] at this
    rw [TaxUploadCsvHandler_cons, hcount]
    simp only []
    rw [this]
    simp [rowLoop, replyOK, henc]
  · simp [hds.length_eq]
  · intro i r hr
    rw [List.getElem?_cons_succ] at hr
    obtain ⟨d, hd, hrd⟩ := forall₂_getElem? _ rows ds hds i r hr
    obtain ⟨hlen, hcsv, _⟩ := h r (List.getElem?_mem hr)
    obtain ⟨f0, itd, hf0, hb, hti, hs⟩ :=
      rowStep_of_valid tbl pf taxCalculate r hlen hcsv (hvalid r (List.getElem?_mem hr))
    rw [hs] at hrd
    cases hrd
    refine ⟨_, f0, itd, hd, hf0, hb, by rw [hti], classify_TotalIncome _ _⟩

theorem TaxUploadCsvHandler_all_rows_valid_witness :
    ∃ taxes, TaxUploadCsvHandler asciiCaseTable digitsParser refundAll
        (["totalIncome", "wht", "donation"] :: [["300", "20", "1"], ["100", "0", "5"]]) =
        .ok ⟨taxes⟩ ∧
      taxes.length =
        (["totalIncome", "wht", "donation"] :: [["300", "20", "1"], ["100", "0", "5"]]).length
          - 1 ∧
      ∀ i r, (["totalIncome", "wht", "donation"] ::
          [["300", "20", "1"], ["100", "0", "5"]])[i + 1]? = some r →
        ∃ d f0 itd, taxes[i]? = some d ∧ r[0]? = some f0 ∧
          buildRecord digitsParser r = some itd ∧
          d = classify itd.TotalIncome (refundAll itd) ∧
          d.TotalIncome = (digitsParser f0).1 :=
  TaxUploadCsvHandler_all_rows_valid asciiCaseTable digitsParser refundAll
    ["totalIncome", "wht", "donation"] [["300", "20", "1"], ["100", "0", "5"]] (by decide)
    (by
      intro r hr
      simp only [List.mem_cons, List.mem_singleton, List.not_mem_nil, or_false] at hr
      rcases hr with rfl | rfl
      · exact ⟨rfl, by decide, ⟨.fin 300, .fin 20, [⟨"donation", .fin 1⟩]⟩, by decide,
          by decide, by decide, by decide⟩
      · exact ⟨rfl, by decide, ⟨.fin 100, .fin 0, [⟨"donation", .fin 5⟩]⟩, by decide,
          by decide, by decide, by decide⟩)

/-- C13, as the claim states it, fails at `TotalTax = 0`: the tax engine of the
specification returns `TotalTax = 0` for the record with no income, and the outcome for
`TotalTax = 0` has `Tax = 0` and `TaxRefund = 0`, so neither field is non-zero. -/
theorem classify_zero_tax_no_nonzero_field :
    taxCalculate sampleSchedule ⟨.fin 0, .fin 0, [⟨"donation", .fin 0⟩]⟩ = ⟨.fin 0⟩ ∧
      (classify (.fin 0) ⟨.fin 0⟩).Tax = 0 ∧ (classify (.fin 0) ⟨.fin 0⟩).TaxRefund = 0 := by
  refine ⟨?_, by decide, by decide⟩
  simp [taxCalculate, exactRecord, F64.isFinite, F64.toRat, GrossLiability,
    grossLiabilityFrom, sampleSchedule, TaxableIncome, TotalAllowances]

/-- C13, amended: for every `TotalTax` at most one of `Tax` and `TaxRefund` is non-zero.
For `TotalTax > 0` it is `Tax`, which holds `TotalTax`, and `TaxRefund` is zero; for
`TotalTax < 0` it is `TaxRefund`, which holds the sign-flipped `TotalTax`, and `Tax` is
zero; for `TotalTax = 0` the literal sets `Tax` to zero and both fields are zero. -/
theorem classify_one_field (totalIncome : F64) (taxCal : TaxResult) :
    ((classify totalIncome taxCal).Tax = 0 ∨ (classify totalIncome taxCal).TaxRefund = 0) ∧
      (0 < taxCal.TotalTax →
        (classify totalIncome taxCal).Tax = taxCal.TotalTax ∧
        (classify totalIncome taxCal).Tax ≠ 0 ∧
        (classify totalIncome taxCal).TaxRefund = 0) ∧
      (taxCal.TotalTax < 0 →
        (classify totalIncome taxCal).TaxRefund = taxCal.TotalTax.negate ∧
        (classify totalIncome taxCal).TaxRefund ≠ 0 ∧
        (classify totalIncome taxCal).Tax = 0) ∧
      (taxCal.TotalTax = 0 →
        (classify totalIncome taxCal).Tax = 0 ∧ (classify totalIncome taxCal).TaxRefund = 0) := by
  obtain ⟨x⟩ := taxCal
  simp only [classify, ge_iff_le, F64.le_def, F64.lt_def, F64.zero_def]
  cases x with
  | nan => simp [F64.le, F64.lt]
  | negInf => simp [F64.le, F64.lt, F64.negate]
  | posInf => simp [F64.le, F64.lt]
  | fin q =>
    by_cases hq : 0 ≤ q
    · have h1 : ¬ q < 0 := not_lt.2 hq
      have h2 : 0 < q → ¬ q = 0 := fun h => ne_of_gt h
      simp [F64.le, F64.lt, hq, h1]
      exact h2
    · have hneg : q < 0 := not_le.1 hq
      have h1 : ¬ 0 < q := not_lt.2 (le_of_lt hneg)
      have h2 : ¬ q = 0 := ne_of_lt hneg
      simp [F64.le, F64.lt, F64.negate, hq, hneg, h1, h2]

theorem classify_one_field_witness :
    ((classify (.fin 100) ⟨.fin 7⟩).Tax = .fin 7 ∧ (classify (.fin 100) ⟨.fin 7⟩).Tax ≠ 0 ∧
        (classify (.fin 100) ⟨.fin 7⟩).TaxRefund = 0) ∧
      ((classify (.fin 100) ⟨.fin (-7)⟩).TaxRefund = (F64.fin (-7)).negate ∧
        (classify (.fin 100) ⟨.fin (-7)⟩).TaxRefund ≠ 0 ∧
        (classify (.fin 100) ⟨.fin (-7)⟩).Tax = 0) ∧
      ((classify (.fin 100) ⟨.fin 0⟩).Tax = 0 ∧ (classify (.fin 100) ⟨.fin 0⟩).TaxRefund = 0) :=
  ⟨(classify_one_field (.fin 100) ⟨.fin 7⟩).2.1 (by decide),
    (classify_one_field (.fin 100) ⟨.fin (-7)⟩).2.2.1 (by decide),
    (classify_one_field (.fin 100) ⟨.fin 0⟩).2.2.2 rfl⟩

/-! ## Further claims on validateTaxValues and the batch row -/

/-- The allowance loop stops at the first allowance that trips a check, with the error
of that allowance. -/
theorem allowanceLoop_first_invalid (tbl : Char → Char) (l : List Allowance) (k : Nat)
    (a : Allowance) (hk : l[k]? = some a)
    (hbefore : ∀ j b, j < k → l[j]? = some b →
      recognizedType tbl b.AllowanceType = true ∧ ¬ b.Amount < 0) :
    (recognizedType tbl a.AllowanceType = false →
        allowanceLoop tbl l = some (.invalidAllowanceType a.AllowanceType)) ∧
      (recognizedType tbl a.AllowanceType = true → a.Amount < 0 →
        allowanceLoop tbl l = some (.negativeAllowanceAmount a.Amount)) := by
  induction l generalizing k with
  | nil => simp at hk
  | cons b rest ih =>
    cases k with
    | zero =>
      simp only [List.getElem?_cons_zero, Option.some.injEq] at hk
      subst hk
      constructor
      · intro h
        simp [allowanceLoop, h]
      · intro h hneg
        simp [allowanceLoop, h, hneg]
    | succ j =>
      simp only [List.getElem?_cons_succ] at hk
      have hb := hbefore 0 b (Nat.succ_pos j) (by simp)
      have hrest := ih j hk (fun i c hi hc =>
        hbefore (i + 1) c (Nat.succ_lt_succ hi) (by simpa using hc))
      simp only [allowanceLoop, hb.1, hb.2, if_true, if_false]
      exact hrest

/-- With `0 <= WithHoldingTax <= TotalIncome` none of the three scalar guards fires. -/
theorem scalar_guards_pass (t : IncomeTaxDetail) (h0 : 0 ≤ t.WithHoldingTax)
    (h1 : t.WithHoldingTax ≤ t.TotalIncome) :
    ¬ t.TotalIncome < 0 ∧ ¬ t.WithHoldingTax < 0 ∧ ¬ t.WithHoldingTax > t.TotalIncome := by
  refine ⟨?_, F64.not_lt_of_le h0, F64.not_lt_of_le h1⟩
  intro hlt
  rw [F64.le_def] at h0 h1
  rw [F64.lt_def] at hlt
  revert h0 h1 hlt
  rw [F64.zero_def]
  cases t.TotalIncome <;> cases t.WithHoldingTax <;> simp [F64.le, F64.lt]
  intro a b; exact le_trans a b

/-- C15: when `0 <= WithHoldingTax <= TotalIncome` and `k` is the smallest index of an
invalid allowance, the error is the one of allowance `k`, whatever comes after it: the
invalid-type error with its type when the type is not recognized, the negative-amount
error with its amount when the type is recognized and the amount negative. -/
theorem validateTaxValues_first_invalid_allowance (tbl : Char → Char) (t : IncomeTaxDetail)
    (k : Nat) (a : Allowance)
    (h0 : 0 ≤ t.WithHoldingTax) (h1 : t.WithHoldingTax ≤ t.TotalIncome)
    (hk : t.Allowances[k]? = some a)
    (hinvalid : recognizedType tbl a.AllowanceType = false ∨
      (recognizedType tbl a.AllowanceType = true ∧ a.Amount < 0))
    (hsmallest : ∀ j b, j < k → t.Allowances[j]? = some b →
      ¬ (recognizedType tbl b.AllowanceType = false ∨
        (recognizedType tbl b.AllowanceType = true ∧ b.Amount < 0))) :
    (recognizedType tbl a.AllowanceType = false →
        validateTaxValues tbl t = some (.invalidAllowanceType a.AllowanceType)) ∧
      (recognizedType tbl a.AllowanceType = true →
        validateTaxValues tbl t = some (.negativeAllowanceAmount a.Amount)) := by
  obtain ⟨g1, g2, g3⟩ := scalar_guards_pass t h0 h1
  have hbefore : ∀ j b, j < k → t.Allowances[j]? = some b →
      recognizedType tbl b.AllowanceType = true ∧ ¬ b.Amount < 0 := by
    intro j b hj hb
    have := hsmallest j b hj hb
    cases hr : recognizedType tbl b.AllowanceType
    · exact absurd (Or.inl hr) this
    · exact ⟨rfl, fun hneg => this (Or.inr ⟨hr, hneg⟩)⟩
  have hloop := allowanceLoop_first_invalid tbl t.Allowances k a hk hbefore
  unfold validateTaxValues
  rw [if_neg g1, if_neg g2, if_neg g3]
  refine ⟨hloop.1, fun hr => ?_⟩
  rcases hinvalid with hbad | ⟨_, hneg⟩
  · rw [hr] at hbad; cases hbad
  · exact hloop.2 hr hneg

theorem validateTaxValues_first_invalid_allowance_witness :
    validateTaxValues asciiCaseTable ⟨.fin 100, .fin 10,
        [⟨"donation", .fin 5⟩, ⟨"bonus", .fin 3⟩, ⟨"donation", .fin (-1)⟩]⟩ =
        some (.invalidAllowanceType "bonus") ∧
      validateTaxValues asciiCaseTable ⟨.fin 100, .fin 10,
        [⟨"donation", .fin 5⟩, ⟨"Receipt", .fin (-3)⟩, ⟨"bonus", .fin 1⟩]⟩ =
        some (.negativeAllowanceAmount (.fin (-3))) :=
  ⟨(validateTaxValues_first_invalid_allowance asciiCaseTable ⟨.fin 100, .fin 10,
        [⟨"donation", .fin 5⟩, ⟨"bonus", .fin 3⟩, ⟨"donation", .fin (-1)⟩]⟩ 1
        ⟨"bonus", .fin 3⟩ (by decide) (by decide) (by decide) (by decide)
        (by
          intro j b hj hb
          have hj0 : j = 0 := by omega
          subst hj0
          simp only [List.getElem?_cons_zero, Option.some.injEq] at hb
          subst hb
          decide)).1 (by decide),
    (validateTaxValues_first_invalid_allowance asciiCaseTable ⟨.fin 100, .fin 10,
        [⟨"donation", .fin 5⟩, ⟨"Receipt", .fin (-3)⟩, ⟨"bonus", .fin 1⟩]⟩ 1
        ⟨"Receipt", .fin (-3)⟩ (by decide) (by decide) (by decide) (by decide)
        (by
          intro j b hj hb
          have hj0 : j = 0 := by omega
          subst hj0
          simp only [List.getElem?_cons_zero, Option.some.injEq] at hb
          subst hb
          decide)).2 (by decide)⟩

/-- C16: over exact numbers the classification keeps the value and reports magnitudes:
for every finite `TotalTax`, `Tax` and `TaxRefund` are finite and `>= 0`, one of them is
`0`, `Tax - TaxRefund = TotalTax`, `Tax = max(TotalTax, 0)` and
`TaxRefund = max(-TotalTax, 0)`. -/
theorem classify_exact (totalIncome : F64) (totalTax : ℚ) :
    ∃ tax refund : ℚ,
      (classify totalIncome ⟨.fin totalTax⟩).Tax = .fin tax ∧
      (classify totalIncome ⟨.fin totalTax⟩).TaxRefund = .fin refund ∧
      0 ≤ (classify totalIncome ⟨.fin totalTax⟩).Tax ∧
      0 ≤ (classify totalIncome ⟨.fin totalTax⟩).TaxRefund ∧
      0 ≤ tax ∧ 0 ≤ refund ∧ (tax = 0 ∨ refund = 0) ∧ tax - refund = totalTax ∧
      tax = max totalTax 0 ∧ refund = max (-totalTax) 0 := by
  by_cases hq : 0 ≤ totalTax
  · refine ⟨totalTax, 0, ?_, ?_, ?_, ?_, hq, le_rfl, Or.inr rfl, by ring, ?_, ?_⟩
    · simp [classify, F64.le_def, F64.zero_def, F64.le, hq]
    · simp [classify, F64.le_def, F64.zero_def, F64.le, hq]
    · simp [classify, F64.le_def, F64.zero_def, F64.le, hq]
    · simp [classify, F64.le_def, F64.zero_def, F64.le, hq]
    · exact (max_eq_left hq).symm
    · exact (max_eq_right (by linarith)).symm
  · have hneg : totalTax < 0 := not_le.1 hq
    refine ⟨0, -totalTax, ?_, ?_, ?_, ?_, le_rfl, by linarith, Or.inl rfl, by ring, ?_, ?_⟩
    · simp [classify, F64.le_def, F64.zero_def, F64.le, hq]
    · simp [classify, F64.le_def, F64.zero_def, F64.le, F64.negate, hq]
    · simp [classify, F64.le_def, F64.zero_def, F64.le, hq]
    · simp [classify, F64.le_def, F64.zero_def, F64.le, F64.negate, hq]
      linarith
    · exact (max_eq_right (le_of_lt hneg)).symm
    · exact (max_eq_left (by linarith)).symm

/-- C17: for a row of three fields accepted by `validateCsvData`, with parsed values
`a`, `b`, `d`, the batch pass on the row is the single-record pipeline on the record
`{a, b, [donation d]}`: it fails exactly when the pipeline fails, with the same error,
and otherwise its outcome is the sign classification of the `TotalTax` the pipeline
returns; under a header of three fields the reply to the row is the error of the
pipeline or the reply of line 101 for that outcome. -/
theorem batch_row_runs_single_pipeline (tbl : Char → Char) (pf : Parser)
    (taxCalculate : IncomeTaxDetail → TaxResult) (header : List String) (f0 f1 f2 : String)
    (h : validateCsvData pf [f0, f1, f2] = none) :
    rowStep tbl pf taxCalculate [f0, f1, f2] =
        (match TaxCalculationsHandler tbl taxCalculate
            ⟨(pf f0).1, (pf f1).1, [⟨"donation", (pf f2).1⟩]⟩ with
          | .error err => RowResult.error err
          | .ok tcr => RowResult.detail (classify (pf f0).1 tcr)) ∧
      (header.length = 3 →
        TaxUploadCsvHandler tbl pf taxCalculate [header, [f0, f1, f2]] =
          (match TaxCalculationsHandler tbl taxCalculate
              ⟨(pf f0).1, (pf f1).1, [⟨"donation", (pf f2).1⟩]⟩ with
            | .error err => Response.badRequest err
            | .ok tcr => replyOK ⟨[classify (pf f0).1 tcr]⟩)) := by
  have hb : buildRecord pf [f0, f1, f2] =
      some ⟨(pf f0).1, (pf f1).1, [⟨"donation", (pf f2).1⟩]⟩ := by
    simp [buildRecord]
  constructor
  · simp only [rowStep, h, hb, TaxCalculationsHandler]
    cases validateTaxValues tbl ⟨(pf f0).1, (pf f1).1, [⟨"donation", (pf f2).1⟩]⟩ <;> rfl
  · intro hlen
    rw [TaxUploadCsvHandler_one_row tbl pf taxCalculate header [f0, f1, f2] hlen.symm]
    simp only [h, hb, TaxCalculationsHandler]
    cases validateTaxValues tbl ⟨(pf f0).1, (pf f1).1, [⟨"donation", (pf f2).1⟩]⟩ <;> rfl

theorem batch_row_runs_single_pipeline_witness :
    rowStep asciiCaseTable digitsParser refundAll ["10", "20", "1"] =
        (match TaxCalculationsHandler asciiCaseTable refundAll
            ⟨(digitsParser "10").1, (digitsParser "20").1,
              [⟨"donation", (digitsParser "1").1⟩]⟩ with
          | .error err => RowResult.error err
          | .ok tcr => RowResult.detail (classify (digitsParser "10").1 tcr)) ∧
      ((["totalIncome", "wht", "donation"] : List String).length = 3 →
        TaxUploadCsvHandler asciiCaseTable digitsParser refundAll
            [["totalIncome", "wht", "donation"], ["10", "20", "1"]] =
          (match TaxCalculationsHandler asciiCaseTable refundAll
              ⟨(digitsParser "10").1, (digitsParser "20").1,
                [⟨"donation", (digitsParser "1").1⟩]⟩ with
            | .error err => Response.badRequest err
            | .ok tcr => replyOK ⟨[classify (digitsParser "10").1 tcr]⟩)) :=
  batch_row_runs_single_pipeline asciiCaseTable digitsParser refundAll
    ["totalIncome", "wht", "donation"] "10" "20" "1" (by decide)

/-- The record of a batch row never gets the invalid-type error: its only allowance
has the type `donation`. Its error, if any, is one of the other four, and it passes
exactly when none of the four comparisons of the code is true. -/
theorem validateTaxValues_batch_record (tbl : Char → Char) (totalIncome wht donation : F64) :
    (∀ ty, validateTaxValues tbl ⟨totalIncome, wht, [⟨"donation", donation⟩]⟩ ≠
        some (.invalidAllowanceType ty)) ∧
      (validateTaxValues tbl ⟨totalIncome, wht, [⟨"donation", donation⟩]⟩ = none ∨
        validateTaxValues tbl ⟨totalIncome, wht, [⟨"donation", donation⟩]⟩ =
          some (.negativeTotalIncome totalIncome) ∨
        validateTaxValues tbl ⟨totalIncome, wht, [⟨"donation", donation⟩]⟩ =
          some (.negativeWht wht) ∨
        validateTaxValues tbl ⟨totalIncome, wht, [⟨"donation", donation⟩]⟩ =
          some (.whtGreaterThanIncome wht totalIncome) ∨
        validateTaxValues tbl ⟨totalIncome, wht, [⟨"donation", donation⟩]⟩ =
          some (.negativeAllowanceAmount donation)) ∧
      (validateTaxValues tbl ⟨totalIncome, wht, [⟨"donation", donation⟩]⟩ = none ↔
        ¬ totalIncome < 0 ∧ ¬ wht < 0 ∧ ¬ wht > totalIncome ∧ ¬ donation < 0) := by
  have hrec : recognizedType tbl "donation" = true := by
    simp [recognizedType]
  refine ⟨?_, ?_, ?_⟩
  · intro ty
    simp only [validateTaxValues, allowanceLoop, hrec, if_true]
    split_ifs <;> simp
  · simp only [validateTaxValues, allowanceLoop, hrec, if_true]
    split_ifs <;> simp
  · rw [validateTaxValues_eq_none_iff]
    simp [hrec]

/-- On a batch record without NaN, acceptance is `0 <= wht <= totalIncome` and
`donation >= 0`. -/
theorem validateTaxValues_batch_record_iff (tbl : Char → Char) (totalIncome wht donation : F64)
    (hi : totalIncome.isNaN = false) (hw : wht.isNaN = false) (hd : donation.isNaN = false) :
    validateTaxValues tbl ⟨totalIncome, wht, [⟨"donation", donation⟩]⟩ = none ↔
      0 ≤ wht ∧ wht ≤ totalIncome ∧ 0 ≤ donation := by
  have hn : NoNaN ⟨totalIncome, wht, [⟨"donation", donation⟩]⟩ := by
    refine ⟨hi, hw, ?_⟩
    intro a ha
    simp only [List.mem_singleton] at ha
    subst ha
    exact hd
  rw [validateTaxValues_eq_none_iff_invariant tbl _ hn]
  simp [Invariant]

/-- C18, evaluated at a row with a NaN donation: the row `5,1,NaN` passes
`validateCsvData`, the batch path builds the record `TotalIncome = 5`,
`WithHoldingTax = 1`, `Allowances = [donation NaN]` from it, and `validateTaxValues`
accepts that record although `donation >= 0` does not hold. -/
theorem batch_accepts_nan_donation :
    validateCsvData digitsParser ["5", "1", "NaN"] = none ∧
      buildRecord digitsParser ["5", "1", "NaN"] =
        some ⟨.fin 5, .fin 1, [⟨"donation", .nan⟩]⟩ ∧
      validateTaxValues asciiCaseTable ⟨.fin 5, .fin 1, [⟨"donation", .nan⟩]⟩ = none ∧
      ¬ ((0 : F64) ≤ .fin 1 ∧ (F64.fin 1) ≤ .fin 5 ∧ (0 : F64) ≤ .nan) := by
  refine ⟨by decide, by decide, by decide, by decide⟩

/-- C19: for a row of at least three fields that `validateCsvData` accepts, each of the
three parses of fields 0, 1 and 2 returns a `nil` error, and the record is built from
the three values they return. -/
theorem buildRecord_parses_succeed (pf : Parser) (record : List String)
    (hlen : 3 ≤ record.length) (h : validateCsvData pf record = none) :
    ∃ r0 r1 r2 v0 v1 v2, record[0]? = some r0 ∧ record[1]? = some r1 ∧
      record[2]? = some r2 ∧ pf r0 = (v0, none) ∧ pf r1 = (v1, none) ∧ pf r2 = (v2, none) ∧
      buildRecord pf record = some ⟨v0, v1, [⟨"donation", v2⟩]⟩ := by
  match record, hlen with
  | r0 :: r1 :: r2 :: extra, _ =>
    have hp := ((validateCsvData_eq_none_iff pf (r0 :: r1 :: r2 :: extra)).1 h).2
    have h0 : (pf r0).2 = none := hp r0 (by simp)
    have h1 : (pf r1).2 = none := hp r1 (by simp)
    have h2 : (pf r2).2 = none := hp r2 (by simp)
    refine ⟨r0, r1, r2, (pf r0).1, (pf r1).1, (pf r2).1, by simp, by simp, by simp,
      Prod.ext rfl h0, Prod.ext rfl h1, Prod.ext rfl h2, ?_⟩
    simp [buildRecord]

theorem buildRecord_parses_succeed_witness :
    ∃ r0 r1 r2 v0 v1 v2, ["7", "3", "2", "9"][0]? = some r0 ∧ ["7", "3", "2", "9"][1]? = some r1 ∧
      ["7", "3", "2", "9"][2]? = some r2 ∧ digitsParser r0 = (v0, none) ∧
      digitsParser r1 = (v1, none) ∧ digitsParser r2 = (v2, none) ∧
      buildRecord digitsParser ["7", "3", "2", "9"] = some ⟨v0, v1, [⟨"donation", v2⟩]⟩ :=
  buildRecord_parses_succeed digitsParser ["7", "3", "2", "9"] (by decide) (by decide)

/-- C20: `validateCsvData` accepts exactly the rows, of any length, in which every
field is non-empty after trimming and parses; so it accepts the row with no field. -/
theorem validateCsvData_accepts_iff (pf : Parser) :
    (∀ record : List String, validateCsvData pf record = none ↔
        ∀ field ∈ record, TrimSpace field ≠ "" ∧ (pf field).2 = none) ∧
      validateCsvData pf [] = none := by
  constructor
  · intro record
    rw [validateCsvData_eq_none_iff]
    constructor
    · intro hh field hf
      exact ⟨hh.1 field hf, hh.2 field hf⟩
    · intro hh
      exact ⟨fun field hf => (hh field hf).1, fun field hf => (hh field hf).2⟩
  · rfl

end Tax
